import Mathlib

/-!
Shallow embedding of the fraud-risk platform sources.

Python floats are embedded as rationals (ℚ): the spec's arithmetic claims are
about exact sums, means and threshold comparisons, and the source performs no
operation outside field arithmetic.  Timestamps (`datetime` values, compared
after normalising to naive UTC) are embedded as integers (seconds).  A feature
map read from the store is a string-keyed map whose values are already parsed;
`none` models a key that is missing or whose value fails `float()` parsing —
both cases yield the caller's default in the source.

Embedded modules:
* `src/services/infer/reasons.py` — `generate_reasons`
* `src/services/infer/feature_vector.py` — `build_feature_vector`
* `src/services/infer/app.py` — `get_default_features`, decision thresholds,
  the `predict` handler body
* `src/services/featurizer/app.py` — `EventWindow` (`add_event`, `get_recent`,
  `get_user_mean_amount`, `cleanup_old`), `Featurizer.compute_features`,
  `Featurizer.process_event`, the cursor logic of `Featurizer.consume_events`
* `src/services/ingest/s3_writer.py` — `ParquetWriter` buffer/flush protocol
  as a labelled transition system
-/

namespace FraudRisk

/-- A string→float map as read from the feature store (`hgetall` result or a
Python dict).  `none` models a missing key or a value that `float()` rejects. -/
abbrev FeatureMap := String → Option ℚ

/-- `reasons.py` lines 20–24: `get_float` returns `float(user_features.get(key, default))`
with default `0.0`, falling back to the default on `ValueError`/`TypeError`. -/
def get_float (m : FeatureMap) (key : String) : ℚ :=
  (m key).getD 0

/-- `reasons.py` lines 57–64: the fixed priority order. -/
def priority_order : List String :=
  ["high_velocity_5m", "unusual_amount", "high_device_churn",
   "frequent_ip_changes", "high_merchant_velocity", "high_velocity_1h"]

/-- `reasons.py` line 69: `priority_order.index(r) if r in priority_order else
len(priority_order)`. -/
def priorityIndex (r : String) : ℕ :=
  (priority_order.indexOf? r).getD priority_order.length

/-- `reasons.py` lines 17–54: the `reasons` list accumulated by the six checks,
in source order of the `append` calls. -/
def collectReasons (m : FeatureMap) : List String :=
  (if get_float m "txns_last_5m" > 5 then ["high_velocity_5m"] else []) ++
  (if get_float m "txns_last_1h" > 20 then ["high_velocity_1h"] else []) ++
  (if get_float m "avg_amount_1h" > 0 ∧ get_float m "amount_zscore" > 3 then
    ["unusual_amount"] else []) ++
  (if get_float m "device_churn_24h" > 2 then ["high_device_churn"] else []) ++
  (if get_float m "ip_changes_24h" > 3 then ["frequent_ip_changes"] else []) ++
  (if get_float m "merchant_velocity_1h" > 5 then ["high_merchant_velocity"] else [])

/-- Stable insertion of `x` into a list already sorted by `key`: `x` is placed
before the first element whose key is not smaller, as Python's stable `sorted`
would order an earlier element relative to later equal-key elements. -/
def insertByKey (key : String → ℕ) (x : String) : List String → List String
  | [] => [x]
  | y :: ys => if key y < key x then y :: insertByKey key x ys else x :: y :: ys

/-- Stable sort by key (insertion sort), modelling `sorted(reasons, key=...)`
at `reasons.py` lines 67–70. -/
def sortByKey (key : String → ℕ) : List String → List String
  | [] => []
  | x :: xs => insertByKey key x (sortByKey key xs)

/-- `reasons.py` `generate_reasons`: collect matching codes, sort by priority,
return the first three, or `["no_significant_indicators"]` when none matched.
The `risk_score` argument is unused by the source body and kept for fidelity. -/
def generate_reasons (m : FeatureMap) (risk_score : ℚ) : List String :=
  let sorted_reasons := sortByKey priorityIndex (collectReasons m)
  if sorted_reasons.isEmpty then ["no_significant_indicators"]
  else sorted_reasons.take 3

/-- The per-code predicates of the reason table (`reasons.py` checks): used to
state that `generate_reasons` returns exactly the codes whose predicates hold. -/
def reason_pred (m : FeatureMap) (r : String) : Bool :=
  if r = "high_velocity_5m" then decide (get_float m "txns_last_5m" > 5)
  else if r = "high_velocity_1h" then decide (get_float m "txns_last_1h" > 20)
  else if r = "unusual_amount" then
    decide (get_float m "avg_amount_1h" > 0 ∧ get_float m "amount_zscore" > 3)
  else if r = "high_device_churn" then decide (get_float m "device_churn_24h" > 2)
  else if r = "frequent_ip_changes" then decide (get_float m "ip_changes_24h" > 3)
  else if r = "high_merchant_velocity" then decide (get_float m "merchant_velocity_1h" > 5)
  else false

/-- `collectReasons` with its six conditions abstracted to booleans, in source
check order. -/
def collect_core (b5m b1h bua bdc bip bmv : Bool) : List String :=
  (bif b5m then ["high_velocity_5m"] else []) ++
  (bif b1h then ["high_velocity_1h"] else []) ++
  (bif bua then ["unusual_amount"] else []) ++
  (bif bdc then ["high_device_churn"] else []) ++
  (bif bip then ["frequent_ip_changes"] else []) ++
  (bif bmv then ["high_merchant_velocity"] else [])

/-- The priority-ordered selection with the six conditions abstracted to
booleans. -/
def filter_core (b5m b1h bua bdc bip bmv : Bool) : List String :=
  (bif b5m then ["high_velocity_5m"] else []) ++
  (bif bua then ["unusual_amount"] else []) ++
  (bif bdc then ["high_device_churn"] else []) ++
  (bif bip then ["frequent_ip_changes"] else []) ++
  (bif bmv then ["high_merchant_velocity"] else []) ++
  (bif b1h then ["high_velocity_1h"] else [])

/-- `feature_vector.py` lines 19–24: the fixed feature order. -/
def feature_order : List String :=
  ["V1", "V2", "V3", "V4", "V5", "V6", "V7", "V8", "V9", "V10",
   "V11", "V12", "V13", "V14", "V15", "V16", "V17", "V18", "V19", "V20",
   "V21", "V22", "V23", "V24", "V25", "V26", "V27", "V28",
   "Amount_normalized"]

/-- `feature_vector.py` lines 26–32: for each name in order, take
`float(user_features.get(name, 0.0))`, substituting `0.0` when the field is
missing or the conversion fails.  The try/except makes the loop total, which
the `Option`-typed map reflects. -/
def build_feature_vector (m : FeatureMap) : List ℚ :=
  feature_order.map (fun k => (m k).getD 0)

/-- `feature_vector.py` line 34: `torch.tensor([vector])` — a shape `(1, 29)`
tensor, embedded as a singleton list of rows. -/
def build_feature_tensor (m : FeatureMap) : List (List ℚ) :=
  [build_feature_vector m]

/-- `infer/app.py` `get_default_features` (lines 111–117): `V1`…`V28` and
`Amount_normalized` all map to `0.0`; no other key is present. -/
def get_default_features : FeatureMap :=
  fun k => if k ∈ feature_order then some 0 else none

/-- `infer/app.py` lines 152–158: the decision ladder of `predict`. -/
def decisionOf (risk_score threshold_allow threshold_block : ℚ) : String :=
  if risk_score < threshold_allow then "allow"
  else if risk_score < threshold_block then "step_up"
  else "block"

/-- `round(risk_score, 4)` at `infer/app.py` line 169.  Mathlib's `round` is
round-half-up where Python rounds ties to even; no claim depends on tie cases. -/
def round4 (q : ℚ) : ℚ :=
  (round (q * 10000) : ℤ) / 10000

/-- `infer/app.py` `PredictionResponse`. -/
structure PredictionResponse where
  user_id : String
  risk_score : ℚ
  decision : String
  reasons : List String
deriving DecidableEq

/-- View a stored hash (the `hgetall` result, an association list of fields) as
a feature map.  A `none` value models a stored string that `float()` rejects. -/
def toFeatureMap (stored : List (String × Option ℚ)) : FeatureMap :=
  fun k => (stored.find? (fun p => p.1 == k)).bind Prod.snd

/-- `infer/app.py` `predict` (lines 128–172), with the model abstracted as a
total scoring function `score` on the assembled vector.  `stored` is the hash
at `features:user:{user_id}`; `hgetall` of an absent key returns the empty map. -/
def predict (score : List ℚ → ℚ) (threshold_allow threshold_block : ℚ)
    (user_id : String) (stored : List (String × Option ℚ)) : PredictionResponse :=
  let features := if stored.isEmpty then get_default_features else toFeatureMap stored
  let reasons0 : List String := if stored.isEmpty then ["missing_features"] else []
  let risk_score := score (build_feature_vector features)
  let decision := decisionOf risk_score threshold_allow threshold_block
  let reasons := if reasons0.isEmpty then generate_reasons features risk_score else reasons0
  ⟨user_id, round4 risk_score, decision, reasons⟩

/-- An event as stored in a user's window: `ts` is the parsed naive-UTC
timestamp in seconds (`process_event` parses `event['ts']` before insertion),
`amount` is present iff the `'amount'` field is, and the identifier fields are
present iff the corresponding dict keys are. -/
structure WEvent where
  ts : ℤ
  amount : Option ℚ
  device_id : Option String
  ip : Option String
  merchant_id : Option String
deriving DecidableEq

/-- `featurizer/app.py` `EventWindow` state: the deque plus running aggregates. -/
structure EventWindow where
  events : List WEvent
  total_amount : ℚ
  amount_count : ℤ
deriving DecidableEq

/-- `EventWindow.__init__` (lines 38–41). -/
def emptyEventWindow : EventWindow :=
  ⟨[], 0, 0⟩

/-- `EventWindow.add_event` (lines 43–48): append, and update the aggregates
when the event carries an `amount` field. -/
def EventWindow.add_event (w : EventWindow) (e : WEvent) : EventWindow :=
  match e.amount with
  | some a => ⟨w.events ++ [e], w.total_amount + a, w.amount_count + 1⟩
  | none => ⟨w.events ++ [e], w.total_amount, w.amount_count⟩

/-- The popleft loop of `EventWindow.cleanup_old` (lines 65–73), recursing on
the deque with the running aggregates threaded through. -/
def cleanupList (cutoff : ℤ) : List WEvent → ℚ → ℤ → EventWindow
  | [], t, c => ⟨[], t, c⟩
  | e :: rest, t, c =>
    if cutoff ≤ e.ts then ⟨e :: rest, t, c⟩
    else
      match e.amount with
      | some a => cleanupList cutoff rest (t - a) (c - 1)
      | none => cleanupList cutoff rest t c

/-- `EventWindow.cleanup_old` (lines 62–73): drop the prefix of events with
`ts < now − cutoff_seconds`, decrementing the aggregates for each dropped
event that carries an amount. -/
def EventWindow.cleanup_old (w : EventWindow) (cutoff_seconds now : ℤ) : EventWindow :=
  cleanupList (now - cutoff_seconds) w.events w.total_amount w.amount_count

/-- `EventWindow.get_recent` (lines 50–56): events with parsed `ts ≥ now − seconds`. -/
def EventWindow.get_recent (w : EventWindow) (seconds now : ℤ) : List WEvent :=
  w.events.filter (fun e => now - seconds ≤ e.ts)

/-- `EventWindow.get_user_mean_amount` (lines 58–60). -/
def EventWindow.get_user_mean_amount (w : EventWindow) : ℚ :=
  if w.amount_count > 0 then w.total_amount / (w.amount_count : ℚ) else 0

/-- The `amount` fields of the currently retained events, in window order. -/
def retainedAmounts (w : EventWindow) : List ℚ :=
  w.events.filterMap (fun e => e.amount)

/-- The aggregate invariant of a window: the running sum and count equal the
sum and number of `amount` fields over currently retained events. -/
def WindowInv (w : EventWindow) : Prop :=
  w.total_amount = (retainedAmounts w).sum ∧ w.amount_count = (retainedAmounts w).length

/-- A window mutation performed by the featurizer: an `add_event` or a
`cleanup_old` call. -/
inductive WinOp where
  | add (e : WEvent)
  | cleanup (cutoff_seconds now : ℤ)

/-- Apply one window operation. -/
def applyOp (w : EventWindow) : WinOp → EventWindow
  | WinOp.add e => w.add_event e
  | WinOp.cleanup cutoff_seconds now => w.cleanup_old cutoff_seconds now

/-- Apply a sequence of window operations, oldest first. -/
def applyOps (w : EventWindow) (ops : List WinOp) : EventWindow :=
  ops.foldl applyOp w

/-- Number of adjacent-pair disagreements, oldest to newest (`featurizer/app.py`
lines 122–127). -/
def countChanges : List String → ℕ
  | [] => 0
  | [_] => 0
  | a :: b :: rest => (if a ≠ b then 1 else 0) + countChanges (b :: rest)

/-- The mean of a list of rationals, `0` when empty (`sum/len if list else 0`). -/
def listMean (l : List ℚ) : ℚ :=
  if l.length = 0 then 0 else l.sum / (l.length : ℚ)

/-- Python's `max(list)` over a nonempty list, `0.0` when empty. -/
def listMax0 : List ℚ → ℚ
  | [] => 0
  | a :: rest => rest.foldl max a

/-- The record returned by `Featurizer.compute_features`. -/
structure Features where
  txns_last_5m : ℕ
  txns_last_1h : ℕ
  txns_last_24h : ℕ
  avg_amount_1h : ℚ
  max_amount_24h : ℚ
  unique_devices_24h : ℕ
  unique_ips_24h : ℕ
  amount_zscore : ℚ
  merchant_velocity_1h : ℕ
  device_churn_24h : ℕ
  ip_changes_24h : ℕ
deriving DecidableEq

/-- `Featurizer.compute_features` (lines 85–141), field for field.  `e.get(k, 0)`
on amounts is `amount.getD 0`; `e.get(k, '')` on identifiers is `getD ""`;
`e.get('merchant_id')` without default compares as an `Option`.  The redundant
inner conditional of the z-score branch (line 113) is kept as in the source. -/
def compute_features (event : WEvent) (w : EventWindow) (now : ℤ) : Features :=
  let events_5m := w.get_recent 300 now
  let events_1h := w.get_recent 3600 now
  let events_24h := w.get_recent 86400 now
  let amounts_1h := events_1h.map (fun e => e.amount.getD 0)
  let amounts_24h := events_24h.map (fun e => e.amount.getD 0)
  let avg_amount_1h := if amounts_1h.length = 0 then 0 else amounts_1h.sum / (amounts_1h.length : ℚ)
  let max_amount_24h := listMax0 amounts_24h
  let unique_devices_24h := ((events_24h.map (fun e => e.device_id.getD "")).dedup).length
  let unique_ips_24h := ((events_24h.map (fun e => e.ip.getD "")).dedup).length
  let user_mean := w.get_user_mean_amount
  let current_amount := event.amount.getD 0
  let amount_zscore :=
    if user_mean > 0 then
      (if user_mean > 0 then (current_amount - user_mean) / user_mean else 0)
    else 0
  let current_merchant := event.merchant_id.getD ""
  let merchant_velocity_1h := (events_1h.filter (fun e => e.merchant_id == some current_merchant)).length
  let device_churn_24h := countChanges (events_24h.map (fun e => e.device_id.getD ""))
  let ip_changes_24h := countChanges (events_24h.map (fun e => e.ip.getD ""))
  ⟨events_5m.length, events_1h.length, events_24h.length, avg_amount_1h,
   max_amount_24h, unique_devices_24h, unique_ips_24h, amount_zscore,
   merchant_velocity_1h, device_churn_24h, ip_changes_24h⟩

/-- A decoded log record as seen by `Featurizer.process_event`: every field of
the byte-string map is optional.  `user_id = some ""` models a present but
empty `user_id`; `ts = none` models a missing or unparseable `ts` (its access
at line 158 raises).  `vfeatures` are the `V1`…`V28` / `Amount_normalized`
fields present in the record, already parsed. -/
structure RawEvent where
  user_id : Option String
  ts : Option ℤ
  amount : Option ℚ
  device_id : Option String
  ip : Option String
  merchant_id : Option String
  vfeatures : List (String × ℚ)
deriving DecidableEq

/-- The window entry built from a decoded record once its `ts` has parsed. -/
def rawToWEvent (e : RawEvent) (ts_val : ℤ) : WEvent :=
  ⟨ts_val, e.amount, e.device_id, e.ip, e.merchant_id⟩

/-- One atomic snapshot write: the pipelined `hset` fields and the `expire`
call on the key (`featurizer/app.py` lines 186–196). -/
structure StoreEffect where
  key : String
  fields : List (String × String)
  ttl : ℤ
deriving DecidableEq

/-- The per-user window map of a `Featurizer` (`self.user_windows`). -/
abbrev FeatState := List (String × EventWindow)

/-- Result of one `process_event` call: the updated window map, the snapshot
write performed (if any), and `some msg` when the call raised. -/
structure ProcResult where
  state : FeatState
  write : Option StoreEffect
  error : Option String
deriving DecidableEq

/-- The behavioural fields of the published snapshot, stringified. -/
def behavioralFields (bf : Features) : List (String × String) :=
  [("txns_last_5m", toString bf.txns_last_5m),
   ("txns_last_1h", toString bf.txns_last_1h),
   ("txns_last_24h", toString bf.txns_last_24h),
   ("avg_amount_1h", toString bf.avg_amount_1h),
   ("max_amount_24h", toString bf.max_amount_24h),
   ("unique_devices_24h", toString bf.unique_devices_24h),
   ("unique_ips_24h", toString bf.unique_ips_24h),
   ("amount_zscore", toString bf.amount_zscore),
   ("merchant_velocity_1h", toString bf.merchant_velocity_1h),
   ("device_churn_24h", toString bf.device_churn_24h),
   ("ip_changes_24h", toString bf.ip_changes_24h)]

/-- Replace the window bound to `uid`. -/
def updateWindows (windows : FeatState) (uid : String) (w : EventWindow) : FeatState :=
  windows.map (fun p => if p.1 == uid then (uid, w) else p)

/-- `Featurizer.process_event` (lines 143–201).  A missing or empty `user_id`
returns immediately (line 149–150) touching nothing.  Otherwise the user's
window is created if absent (lines 153–154) *before* `event['ts']` is parsed
(line 158), so a record with a bad `ts` still leaves a fresh empty window
behind; then the event is added, the 48-hour eviction runs, features are
computed and one snapshot write with a 48-hour TTL is emitted. -/
def process_event (e : RawEvent) (windows : FeatState) (now : ℤ) : ProcResult :=
  match e.user_id with
  | none => ⟨windows, none, none⟩
  | some uid =>
    if uid = "" then ⟨windows, none, none⟩
    else
      let windows1 :=
        if (windows.find? (fun p => p.1 == uid)).isSome then windows
        else windows ++ [(uid, emptyEventWindow)]
      let w := ((windows1.find? (fun p => p.1 == uid)).map Prod.snd).getD emptyEventWindow
      match e.ts with
      | none => ⟨windows1, none, some "ts missing or unparseable"⟩
      | some ts_val =>
        let w2 := (w.add_event (rawToWEvent e ts_val)).cleanup_old 172800 now
        let bf := compute_features (rawToWEvent e ts_val) w2 now
        let fields :=
          e.vfeatures.map (fun p => (p.1, toString p.2)) ++
          behavioralFields bf ++
          [("last_event_ts", toString ts_val),
           ("last_feature_update_ts", toString now ++ "Z")]
        ⟨updateWindows windows1 uid w2,
         some ⟨"features:user:" ++ uid, fields, 172800⟩, none⟩

/-- The cursor logic of `Featurizer.consume_events` (lines 221–229) over one
batch: each record is attempted; on an exception the `continue` at line 226
jumps to the next record *before* the `last_id = msg_id` assignment at
line 229, so the cursor is updated only for records that process successfully.
A record is `(msg_id, ok)` where `ok` abstracts whether `process_event` raised. -/
def consumeBatch (last_id : ℕ) : List (ℕ × Bool) → ℕ
  | [] => last_id
  | (msg_id, ok) :: rest =>
    if ok then consumeBatch msg_id rest else consumeBatch last_id rest

/-- The stream read `xread({stream: last_id}, count, block)`: up to `count`
records with id greater than `last_id`, in stream order. -/
def read_after (last_id count : ℕ) (stream : List (ℕ × Bool)) : List (ℕ × Bool) :=
  (stream.filter (fun msg => last_id < msg.1)).take count

/-- State of a `ParquetWriter` (`s3_writer.py`): the mutex-protected buffer,
the snapshots currently being flushed outside the critical section, the
batches written as blobs, the snapshots dropped by a flush that raised before
reaching the protected write (see `WriterStep.flush_prepare_fail`), and
(ghost) the multiset of all events enqueued. -/
structure WriterState (α : Type) where
  buffer : List α
  inflight : Multiset (List α)
  written : Multiset (List α)
  lost : Multiset (List α)
  enqueued : Multiset α

/-- A fresh `ParquetWriter`: empty buffer, nothing in flight, nothing written,
nothing lost. -/
def initWriter (α : Type) : WriterState α :=
  ⟨[], 0, 0, 0, 0⟩

/-- The atomic transitions of the `ParquetWriter` protocol.
`add_event` (lines 82–85) appends under the lock.  `flush` (lines 87–128)
decomposes into: `flush_snapshot`, the critical section that copies and clears
a nonempty buffer (lines 94–99; an empty buffer returns 0 changing nothing),
followed by one of three outcomes for the in-flight snapshot.
`flush_prepare_fail`: the statements between the critical section and the
`try` — `fromisoformat` on the first event's `ts` (line 107) and the partition
`mkdir` (line 113) — raise; they sit outside the re-insert protection, so the
snapshot is neither written nor put back: it is dropped.  Whether they raise
depends on the event's `ts` text and the filesystem, which the abstract event
type cannot see, so the transition is enabled nondeterministically.
`flush_write_ok`: `write_table` succeeds and the snapshot is recorded as one
blob (lines 120–123).  `flush_write_fail`: the write raises inside the `try`
and the snapshot is re-inserted at the head of the current buffer before the
error is re-raised (lines 124–128). -/
inductive WriterStep {α : Type} [DecidableEq α] : WriterState α → WriterState α → Prop
  | add_event (e : α) (s : WriterState α) :
      WriterStep s ⟨s.buffer ++ [e], s.inflight, s.written, s.lost, e ::ₘ s.enqueued⟩
  | flush_snapshot (s : WriterState α) :
      s.buffer ≠ [] →
      WriterStep s ⟨[], s.buffer ::ₘ s.inflight, s.written, s.lost, s.enqueued⟩
  | flush_prepare_fail (snap : List α) (s : WriterState α) :
      snap ∈ s.inflight →
      WriterStep s ⟨s.buffer, s.inflight.erase snap, s.written, snap ::ₘ s.lost, s.enqueued⟩
  | flush_write_ok (snap : List α) (s : WriterState α) :
      snap ∈ s.inflight →
      WriterStep s ⟨s.buffer, s.inflight.erase snap, snap ::ₘ s.written, s.lost, s.enqueued⟩
  | flush_write_fail (snap : List α) (s : WriterState α) :
      snap ∈ s.inflight →
      WriterStep s ⟨snap ++ s.buffer, s.inflight.erase snap, s.written, s.lost, s.enqueued⟩

/-- States reachable from a fresh writer by any interleaving of enqueues and
flush phases. -/
def WriterReachable {α : Type} [DecidableEq α] (s : WriterState α) : Prop :=
  Relation.ReflTransGen WriterStep (initWriter α) s

/-- All events of a multiset of batches, as a multiset. -/
def flatBatches {α : Type} (m : Multiset (List α)) : Multiset α :=
  (m.map (fun l => (l : Multiset α))).sum

/-- The conservation the claim asserts: events written out, in flight, and
buffered account exactly for the events enqueued — nothing duplicated,
nothing lost. -/
def writerConserved {α : Type} (s : WriterState α) : Prop :=
  flatBatches s.written + flatBatches s.inflight + (s.buffer : Multiset α) = s.enqueued

/-- The accounting that actually holds: enqueued events are written, in
flight, buffered, or lost to a flush that raised before reaching the
protected write. -/
def writerAccounted {α : Type} (s : WriterState α) : Prop :=
  flatBatches s.written + flatBatches s.inflight + flatBatches s.lost +
    (s.buffer : Multiset α) = s.enqueued

/-- Claim C6: for thresholds `threshold_allow < threshold_block`, the decision
returned by `predict` is `"allow"` iff the score is below the allow threshold,
`"step_up"` iff it lies in `[threshold_allow, threshold_block)`, `"block"` iff
it is at least the block threshold, and it is always one of the three. -/
theorem decision_thresholds (r threshold_allow threshold_block : ℚ)
    (h : threshold_allow < threshold_block) :
    (decisionOf r threshold_allow threshold_block = "allow" ↔ r < threshold_allow) ∧
    (decisionOf r threshold_allow threshold_block = "step_up" ↔
      threshold_allow ≤ r ∧ r < threshold_block) ∧
    (decisionOf r threshold_allow threshold_block = "block" ↔ threshold_block ≤ r) ∧
    (decisionOf r threshold_allow threshold_block = "allow" ∨
     decisionOf r threshold_allow threshold_block = "step_up" ∨
     decisionOf r threshold_allow threshold_block = "block") := by
  unfold decisionOf
  split_ifs with h1 h2 <;>
    refine ⟨?_, ?_, ?_, ?_⟩ <;> simp_all <;> linarith

/-- Witness for `decision_thresholds` at `r = 1`, thresholds `2 < 3`. -/
theorem decision_thresholds_witness :
    (decisionOf 1 2 3 = "allow" ↔ (1 : ℚ) < 2) ∧
    (decisionOf 1 2 3 = "step_up" ↔ (2 : ℚ) ≤ 1 ∧ (1 : ℚ) < 3) ∧
    (decisionOf 1 2 3 = "block" ↔ (3 : ℚ) ≤ 1) ∧
    (decisionOf 1 2 3 = "allow" ∨ decisionOf 1 2 3 = "step_up" ∨
     decisionOf 1 2 3 = "block") :=
  decision_thresholds 1 2 3 (by norm_num)

/-- Claim C7: `build_feature_vector` is total on any string-keyed map, and
yields a shape `(1, 29)` tensor whose row lists, in the fixed order of
`feature_order` (`V1`…`V28`, `Amount_normalized`), the value of the
corresponding field with `0` substituted for a missing or non-numeric field. -/
theorem build_feature_vector_correct (m : FeatureMap) :
    (build_feature_tensor m).length = 1 ∧
    (build_feature_vector m).length = 29 ∧
    ∀ i (d : ℚ) (s : String), i < 29 →
      (build_feature_vector m).getD i d = (m (feature_order.getD i s)).getD 0 := by
  refine ⟨rfl, by simp [build_feature_vector, feature_order], ?_⟩
  intro i d s hi
  have hlen : i < feature_order.length := by simp [feature_order]; omega
  have h1 : feature_order[i]? = some feature_order[i] := List.getElem?_eq_getElem hlen
  simp [build_feature_vector, List.getD, h1]

/-- Witness for `build_feature_vector_correct` at a concrete map and index. -/
theorem build_feature_vector_correct_witness :
    (build_feature_vector (fun _ => some 2)).getD 3 7 =
      ((fun (_ : String) => some (2 : ℚ)) (feature_order.getD 3 "z")).getD 0 :=
  (build_feature_vector_correct (fun _ => some 2)).2.2 3 7 "z" (by norm_num)

/-- Claim C8: when `hgetall` on `features:user:{user_id}` returns the empty
map, `predict` still returns a response, its reasons are exactly
`["missing_features"]` for every scoring function (so the behavioral rules are
never consulted), the default feature set yields the all-zero length-29
vector, and the score is computed on exactly that vector. -/
theorem predict_missing_features (score : List ℚ → ℚ)
    (threshold_allow threshold_block : ℚ) (user_id : String) :
    (predict score threshold_allow threshold_block user_id []).reasons =
      ["missing_features"] ∧
    build_feature_vector get_default_features = List.replicate 29 0 ∧
    (predict score threshold_allow threshold_block user_id []).risk_score =
      round4 (score (List.replicate 29 0)) := by
  have hvec : build_feature_vector get_default_features = List.replicate 29 0 := by decide
  refine ⟨by simp [predict], hvec, ?_⟩
  simp [predict, hvec]

/-- Claim C10: a decoded record with no `user_id` field, or whose `user_id` is
the empty string, makes `process_event` return without raising, with the
per-user window map unchanged and no feature-store write (no `hset`, no
`expire`). -/
theorem process_event_no_user_frame (e : RawEvent) (windows : FeatState) (now : ℤ)
    (h : e.user_id = none ∨ e.user_id = some "") :
    process_event e windows now = ⟨windows, none, none⟩ := by
  rcases h with h | h <;> simp [process_event, h]

/-- Witness for `process_event_no_user_frame` on a record with no `user_id`. -/
theorem process_event_no_user_frame_witness :
    process_event ⟨none, some 0, some 5, none, none, none, []⟩
      [("u9", emptyEventWindow)] 0 = ⟨[("u9", emptyEventWindow)], none, none⟩ :=
  process_event_no_user_frame _ _ _ (Or.inl rfl)

/-- Claim C2 counterexample: in the batch `[(1, ok), (2, fails)]` read with
cursor `0`, the failing record `2` is logged and skipped but the cursor ends
at `1`, so a subsequent `read_after` with that cursor returns the bad record
again — the cursor did not advance past the offending record. -/
theorem consume_cursor_counterexample :
    consumeBatch 0 [(1, true), (2, false)] = 1 ∧
    (2, false) ∈ read_after (consumeBatch 0 [(1, true), (2, false)]) 10
      [(1, true), (2, false)] := by
  decide

/-- Claim C2 (amended): the consumer cursor after a batch is the id of the
last successfully processed record (the initial cursor when none succeeded);
failing records are skipped within the batch but never recorded, so the
cursor stays below any bound that exceeds the initial cursor and every
successful id — in particular a failing record that no later record outruns
is eligible to be returned again by a subsequent `read_after`. -/
theorem consume_cursor_amended (last_id : ℕ) (batch : List (ℕ × Bool)) :
    consumeBatch last_id batch =
      ((batch.filter (fun msg => msg.2)).map Prod.fst).getLastD last_id ∧
    ∀ k : ℕ, last_id < k → (∀ msg ∈ batch, msg.2 = true → msg.1 < k) →
      consumeBatch last_id batch < k := by
  constructor
  · induction batch generalizing last_id with
    | nil => rfl
    | cons p rest ih =>
      obtain ⟨msg_id, ok⟩ := p
      cases ok with
      | true =>
        have hf : ((msg_id, true) :: rest).filter (fun msg => msg.2) =
            (msg_id, true) :: rest.filter (fun msg => msg.2) := by simp
        rw [show consumeBatch last_id ((msg_id, true) :: rest) =
              consumeBatch msg_id rest from rfl,
            hf, List.map_cons, List.getLastD_cons]
        exact ih msg_id
      | false =>
        have hf : ((msg_id, false) :: rest).filter (fun msg => msg.2) =
            rest.filter (fun msg => msg.2) := by simp
        rw [show consumeBatch last_id ((msg_id, false) :: rest) =
              consumeBatch last_id rest from rfl, hf]
        exact ih last_id
  · induction batch generalizing last_id with
    | nil => intro k hk _; simpa [consumeBatch] using hk
    | cons p rest ih =>
      obtain ⟨msg_id, ok⟩ := p
      intro k hk hall
      cases ok with
      | true =>
        have hid : msg_id < k := hall (msg_id, true) (List.mem_cons_self _ _) rfl
        simpa [consumeBatch] using
          ih msg_id k hid (fun msg hm ho => hall msg (List.mem_cons_of_mem _ hm) ho)
      | false =>
        simpa [consumeBatch] using
          ih last_id k hk (fun msg hm ho => hall msg (List.mem_cons_of_mem _ hm) ho)

/-- Witness for `consume_cursor_amended` at the counterexample batch. -/
theorem consume_cursor_amended_witness :
    consumeBatch 0 [(1, true), (2, false)] =
      (([(1, true), (2, false)].filter (fun msg => msg.2)).map Prod.fst).getLastD 0 ∧
    consumeBatch 0 [(1, true), (2, false)] < 3 :=
  ⟨(consume_cursor_amended 0 [(1, true), (2, false)]).1,
   (consume_cursor_amended 0 [(1, true), (2, false)]).2 3 (by decide) (by decide)⟩

/-- Adding an event preserves the aggregate invariant. -/
theorem windowInv_add (w : EventWindow) (e : WEvent) (h : WindowInv w) :
    WindowInv (w.add_event e) := by
  obtain ⟨h1, h2⟩ := h
  cases he : e.amount with
  | some a =>
    refine ⟨?_, ?_⟩ <;>
      simp [EventWindow.add_event, he, retainedAmounts, List.filterMap_append,
        h1, h2] at *
  | none =>
    refine ⟨?_, ?_⟩ <;>
      simp [EventWindow.add_event, he, retainedAmounts, List.filterMap_append, h1, h2]

/-- The eviction loop yields a window satisfying the aggregate invariant
whenever the incoming aggregates match the incoming list. -/
theorem windowInv_cleanupList (cutoff : ℤ) (l : List WEvent) (t : ℚ) (c : ℤ)
    (h1 : t = (l.filterMap (fun e => e.amount)).sum)
    (h2 : c = ((l.filterMap (fun e => e.amount)).length : ℤ)) :
    WindowInv (cleanupList cutoff l t c) := by
  induction l generalizing t c with
  | nil => exact ⟨by simpa [cleanupList, retainedAmounts] using h1,
      by simpa [cleanupList, retainedAmounts] using h2⟩
  | cons e rest ih =>
    by_cases hc : cutoff ≤ e.ts
    · rw [show cleanupList cutoff (e :: rest) t c = ⟨e :: rest, t, c⟩ from by
        simp [cleanupList, hc]]
      exact ⟨h1, h2⟩
    · cases he : e.amount with
      | some a =>
        rw [show cleanupList cutoff (e :: rest) t c =
            cleanupList cutoff rest (t - a) (c - 1) from by simp [cleanupList, hc, he]]
        apply ih
        · rw [h1]; simp [List.filterMap_cons, he]
        · rw [h2]; simp [List.filterMap_cons, he]
      | none =>
        rw [show cleanupList cutoff (e :: rest) t c =
            cleanupList cutoff rest t c from by simp [cleanupList, hc, he]]
        apply ih
        · rw [h1]; simp [List.filterMap_cons, he]
        · rw [h2]; simp [List.filterMap_cons, he]

/-- Eviction preserves the aggregate invariant. -/
theorem windowInv_cleanup (w : EventWindow) (cutoff_seconds now : ℤ)
    (h : WindowInv w) : WindowInv (w.cleanup_old cutoff_seconds now) :=
  windowInv_cleanupList _ _ _ _ h.1 h.2

/-- Claim C3: starting from any window whose aggregates match its retained
events (in particular the fresh empty window), every sequence of `add_event`
and `cleanup_old` operations leaves `total_amount` equal to the sum of the
`amount` fields of the currently retained events and `amount_count` equal to
their number. -/
theorem window_aggregate_consistency (w : EventWindow) (h : WindowInv w)
    (ops : List WinOp) : WindowInv (applyOps w ops) := by
  induction ops generalizing w with
  | nil => exact h
  | cons op rest ih =>
    rw [show applyOps w (op :: rest) = applyOps (applyOp w op) rest from rfl]
    apply ih
    cases op with
    | add e => exact windowInv_add w e h
    | cleanup cutoff_seconds now => exact windowInv_cleanup w cutoff_seconds now h

/-- Witness for `window_aggregate_consistency`: one insertion carrying an
amount, then the 48-hour eviction pass. -/
theorem window_aggregate_consistency_witness :
    WindowInv (applyOps emptyEventWindow
      [WinOp.add ⟨0, some 5, none, none, none⟩, WinOp.cleanup 172800 0]) :=
  window_aggregate_consistency emptyEventWindow ⟨rfl, rfl⟩
    [WinOp.add ⟨0, some 5, none, none, none⟩, WinOp.cleanup 172800 0]

/-- Claim C4 counterexample: insert a fresh event (`ts = 0`), then an event
whose `ts` is 200000 s (≈ 55.5 h) in the past, and run the eviction pass at
`now = 0`.  The eviction only drops a *prefix*: it stops at the fresh head, so
the stale event stays retained with `ts < now − 48h`, refuting the claim that
every remaining event is within 48 hours of `now`. -/
theorem window_bound_counterexample :
    (⟨-200000, none, none, none, none⟩ : WEvent) ∈
      (((emptyEventWindow.add_event ⟨0, none, none, none, none⟩).add_event
        ⟨-200000, none, none, none, none⟩).cleanup_old 172800 0).events ∧
    (-200000 : ℤ) < 0 - 172800 := by
  decide

/-- The eviction loop either empties the window or leaves a head event at or
after the cutoff. -/
theorem cleanupList_head (cutoff : ℤ) (l : List WEvent) (t : ℚ) (c : ℤ) :
    ∀ h : (cleanupList cutoff l t c).events ≠ [],
      cutoff ≤ ((cleanupList cutoff l t c).events.head h).ts := by
  induction l generalizing t c with
  | nil => intro h; simp [cleanupList] at h
  | cons e rest ih =>
    by_cases hc : cutoff ≤ e.ts
    · rw [show cleanupList cutoff (e :: rest) t c = ⟨e :: rest, t, c⟩ from by
        simp [cleanupList, hc]]
      intro h
      simpa using hc
    · cases he : e.amount with
      | some a =>
        rw [show cleanupList cutoff (e :: rest) t c =
            cleanupList cutoff rest (t - a) (c - 1) from by simp [cleanupList, hc, he]]
        exact ih (t - a) (c - 1)
      | none =>
        rw [show cleanupList cutoff (e :: rest) t c =
            cleanupList cutoff rest t c from by simp [cleanupList, hc, he]]
        exact ih t c

/-- Claim C4 (amended): after inserting the current event and running the
48-hour eviction pass, the *first* retained event — the insertion-oldest one,
the only one the prefix-drop loop inspects — has `ts ≥ now − 48h` whenever the
window is nonempty.  Events behind a fresh head may still be older (see the
counterexample). -/
theorem window_bound_amended (w : EventWindow) (e : WEvent) (now : ℤ)
    (h : ((w.add_event e).cleanup_old 172800 now).events ≠ []) :
    now - 172800 ≤ (((w.add_event e).cleanup_old 172800 now).events.head h).ts :=
  cleanupList_head (now - 172800) (w.add_event e).events
    (w.add_event e).total_amount (w.add_event e).amount_count h

/-- Witness for `window_bound_amended`: a fresh event at `now = 0` survives
eviction and heads the window. -/
theorem window_bound_amended_witness :
    (0 : ℤ) - 172800 ≤
      (((emptyEventWindow.add_event ⟨0, none, none, none, none⟩).cleanup_old
        172800 0).events.head (by decide)).ts :=
  window_bound_amended emptyEventWindow ⟨0, none, none, none, none⟩ 0 (by decide)

/-- Under the aggregate invariant, the stored running mean is the true mean of
the retained `amount` fields. -/
theorem mean_eq_listMean (w : EventWindow) (h : WindowInv w) :
    w.get_user_mean_amount = listMean (retainedAmounts w) := by
  obtain ⟨h1, h2⟩ := h
  unfold EventWindow.get_user_mean_amount listMean
  rw [h1, h2]
  by_cases hl : (retainedAmounts w).length = 0
  · simp [hl]
  · have hpos : (0 : ℤ) < ((retainedAmounts w).length : ℤ) := by
      omega
    simp only [hpos, if_pos, hl, if_neg]
    push_cast
    simp [hl]

/-- Claim C9: after the current event is added to the user's window and old
events evicted (the `process_event` order), the published `amount_zscore` is
`(current_amount − μ) / μ` with `μ` the mean `total_amount / amount_count`
over the currently retained events, and `0` whenever `μ ≤ 0`. -/
theorem zscore_cumulative_mean (w : EventWindow) (h : WindowInv w)
    (e : WEvent) (now : ℤ) :
    (compute_features e ((w.add_event e).cleanup_old 172800 now) now).amount_zscore =
      if 0 < listMean (retainedAmounts ((w.add_event e).cleanup_old 172800 now)) then
        (e.amount.getD 0 -
            listMean (retainedAmounts ((w.add_event e).cleanup_old 172800 now))) /
          listMean (retainedAmounts ((w.add_event e).cleanup_old 172800 now))
      else 0 := by
  have hinv : WindowInv ((w.add_event e).cleanup_old 172800 now) :=
    windowInv_cleanup _ _ _ (windowInv_add w e h)
  have hm := mean_eq_listMean _ hinv
  set w2 := (w.add_event e).cleanup_old 172800 now with hw2
  by_cases hpos : 0 < listMean (retainedAmounts w2) <;>
    simp [compute_features, hm, hpos]

/-- Witness for `zscore_cumulative_mean`: a single event of amount 5 at
`now = 0` gives mean 5 and z-score 0. -/
theorem zscore_cumulative_mean_witness :
    (compute_features ⟨0, some 5, none, none, none⟩
        ((emptyEventWindow.add_event ⟨0, some 5, none, none, none⟩).cleanup_old
          172800 0) 0).amount_zscore =
      if 0 < listMean (retainedAmounts
          ((emptyEventWindow.add_event ⟨0, some 5, none, none, none⟩).cleanup_old
            172800 0)) then
        ((⟨0, some 5, none, none, none⟩ : WEvent).amount.getD 0 -
            listMean (retainedAmounts
              ((emptyEventWindow.add_event ⟨0, some 5, none, none, none⟩).cleanup_old
                172800 0))) /
          listMean (retainedAmounts
            ((emptyEventWindow.add_event ⟨0, some 5, none, none, none⟩).cleanup_old
              172800 0))
      else 0 :=
  zscore_cumulative_mean emptyEventWindow ⟨rfl, rfl⟩ ⟨0, some 5, none, none, none⟩ 0

/-- Flattening distributes over adding one batch. -/
theorem flatBatches_cons {α : Type} (l : List α) (m : Multiset (List α)) :
    flatBatches (l ::ₘ m) = (l : Multiset α) + flatBatches m := by
  simp [flatBatches]

/-- Each writer transition preserves the full accounting. -/
theorem writerAccounted_step {α : Type} [DecidableEq α] {s s2 : WriterState α}
    (h : WriterStep s s2) (hc : writerAccounted s) : writerAccounted s2 := by
  unfold writerAccounted at *
  cases h with
  | add_event e s =>
    simp only [← Multiset.coe_add, Multiset.coe_singleton, ← Multiset.singleton_add,
      ← hc]
    abel
  | flush_snapshot s hne =>
    simp only [flatBatches_cons, Multiset.coe_nil, ← hc]
    abel
  | flush_prepare_fail snap s hmem =>
    rw [← Multiset.cons_erase hmem] at hc
    rw [flatBatches_cons]
    rw [flatBatches_cons] at hc
    rw [← hc]
    abel
  | flush_write_ok snap s hmem =>
    rw [← Multiset.cons_erase hmem] at hc
    rw [flatBatches_cons]
    rw [flatBatches_cons] at hc
    rw [← hc]
    abel
  | flush_write_fail snap s hmem =>
    rw [← Multiset.cons_erase hmem] at hc
    rw [flatBatches_cons] at hc
    simp only [← Multiset.coe_add, ← hc]
    abel

/-- Claim C1 counterexample: enqueue the event `7`, snapshot-and-clear, then
let the flush raise before reaching the protected write (`fromisoformat` on
the first event's unvalidated `ts` at `s3_writer.py` line 107, or the `mkdir`
at line 113 — the ingest schema checks `ts` only as a string, so an
unparseable `ts` reaches the buffer).  The snapshot is dropped with no
re-insertion, and the reachable state has written `0`, buffer `[]`, enqueued
`{7}`: the claimed conservation fails, the event is lost. -/
theorem writer_conservation_counterexample :
    WriterReachable (⟨[], 0, 0, {[7]}, {7}⟩ : WriterState ℕ) ∧
    ¬ writerConserved (⟨[], 0, 0, {[7]}, {7}⟩ : WriterState ℕ) := by
  constructor
  · have t1 : WriterStep (initWriter ℕ) ⟨[7], 0, 0, 0, {7}⟩ :=
      WriterStep.add_event 7 (initWriter ℕ)
    have t2 : WriterStep (⟨[7], 0, 0, 0, {7}⟩ : WriterState ℕ) ⟨[], {[7]}, 0, 0, {7}⟩ :=
      WriterStep.flush_snapshot _ (by decide)
    have t3 : WriterStep (⟨[], {[7]}, 0, 0, {7}⟩ : WriterState ℕ)
        ⟨[], 0, 0, {[7]}, {7}⟩ :=
      WriterStep.flush_prepare_fail [7] _ (by decide)
    exact Relation.ReflTransGen.tail
      (Relation.ReflTransGen.tail (Relation.ReflTransGen.single t1) t2) t3
  · unfold writerConserved
    decide

/-- Claim C1 (amended): in every state reachable by any interleaving of
`add_event` and `flush` phases, the events written to blobs, in flight, lost
to a flush that raised before the protected write, and buffered account
exactly for the events enqueued — no event is ever written twice; whenever no
flush has raised outside the `try` (nothing lost), blobs + in-flight +
buffer equal exactly the enqueued events, the claimed conservation; and from
any state, a blob-write failure *inside* the `try` re-inserts the in-flight
snapshot at the head of the current buffer, preserving event order, as the
error propagates. -/
theorem writer_buffer_conservation_amended {α : Type} [DecidableEq α]
    (s : WriterState α) (h : WriterReachable s) :
    writerAccounted s ∧
    (s.lost = 0 → writerConserved s) ∧
    ∀ snap ∈ s.inflight,
      WriterStep s ⟨snap ++ s.buffer, s.inflight.erase snap, s.written, s.lost, s.enqueued⟩ := by
  have hacc : writerAccounted s := by
    induction h with
    | refl => simp [writerAccounted, initWriter, flatBatches]
    | tail hsteps hstep ih => exact writerAccounted_step hstep ih
  refine ⟨hacc, ?_, ?_⟩
  · intro hlost
    unfold writerAccounted at hacc
    unfold writerConserved
    simpa [hlost, flatBatches] using hacc
  · intro snap hsnap
    exact WriterStep.flush_write_fail snap s hsnap

/-- Witness for `writer_buffer_conservation_amended`: the state reached by a
single enqueue of the event `7`. -/
theorem writer_buffer_conservation_amended_witness :
    writerAccounted (⟨[7], 0, 0, 0, {7}⟩ : WriterState ℕ) ∧
    ((⟨[7], 0, 0, 0, {7}⟩ : WriterState ℕ).lost = 0 →
      writerConserved (⟨[7], 0, 0, 0, {7}⟩ : WriterState ℕ)) ∧
    ∀ snap ∈ (⟨[7], 0, 0, 0, {7}⟩ : WriterState ℕ).inflight,
      WriterStep (⟨[7], 0, 0, 0, {7}⟩ : WriterState ℕ)
        ⟨snap ++ [7], (0 : Multiset (List ℕ)).erase snap, 0, 0, {7}⟩ :=
  writer_buffer_conservation_amended (⟨[7], 0, 0, 0, {7}⟩ : WriterState ℕ)
    (Relation.ReflTransGen.single (WriterStep.add_event 7 (initWriter ℕ)))

/-- The collected reasons are the core form at the six decided predicates. -/
theorem collect_bridge (m : FeatureMap) :
    collectReasons m =
      collect_core (decide (get_float m "txns_last_5m" > 5))
        (decide (get_float m "txns_last_1h" > 20))
        (decide (get_float m "avg_amount_1h" > 0 ∧ get_float m "amount_zscore" > 3))
        (decide (get_float m "device_churn_24h" > 2))
        (decide (get_float m "ip_changes_24h" > 3))
        (decide (get_float m "merchant_velocity_1h" > 5)) := by
  simp only [collectReasons, collect_core, Bool.cond_decide]

/-- Filtering the priority list by the reason predicates gives the core form
at the six decided predicates. -/
theorem filter_bridge (m : FeatureMap) :
    priority_order.filter (reason_pred m) =
      filter_core (decide (get_float m "txns_last_5m" > 5))
        (decide (get_float m "txns_last_1h" > 20))
        (decide (get_float m "avg_amount_1h" > 0 ∧ get_float m "amount_zscore" > 3))
        (decide (get_float m "device_churn_24h" > 2))
        (decide (get_float m "ip_changes_24h" > 3))
        (decide (get_float m "merchant_velocity_1h" > 5)) := by
  have r1 : reason_pred m "high_velocity_5m" = decide (get_float m "txns_last_5m" > 5) := rfl
  have r2 : reason_pred m "unusual_amount" =
      decide (get_float m "avg_amount_1h" > 0 ∧ get_float m "amount_zscore" > 3) := rfl
  have r3 : reason_pred m "high_device_churn" =
      decide (get_float m "device_churn_24h" > 2) := rfl
  have r4 : reason_pred m "frequent_ip_changes" =
      decide (get_float m "ip_changes_24h" > 3) := rfl
  have r5 : reason_pred m "high_merchant_velocity" =
      decide (get_float m "merchant_velocity_1h" > 5) := rfl
  have r6 : reason_pred m "high_velocity_1h" = decide (get_float m "txns_last_1h" > 20) := rfl
  by_cases h1 : get_float m "txns_last_5m" > 5 <;>
  by_cases h2 : get_float m "txns_last_1h" > 20 <;>
  by_cases h3 : get_float m "avg_amount_1h" > 0 ∧ get_float m "amount_zscore" > 3 <;>
  by_cases h4 : get_float m "device_churn_24h" > 2 <;>
  by_cases h5 : get_float m "ip_changes_24h" > 3 <;>
  by_cases h6 : get_float m "merchant_velocity_1h" > 5 <;>
  simp [priority_order, List.filter_cons, r1, r2, r3, r4, r5, r6, filter_core,
    Bool.cond_decide, h1, h2, h3, h4, h5, h6]

/-- For each of the 64 predicate outcomes, sorting the collected codes by
priority index and truncating agrees with filtering the priority list. -/
theorem reasons_core_eq (b5m b1h bua bdc bip bmv : Bool) :
    (if (sortByKey priorityIndex (collect_core b5m b1h bua bdc bip bmv)).isEmpty
      then ["no_significant_indicators"]
      else (sortByKey priorityIndex (collect_core b5m b1h bua bdc bip bmv)).take 3) =
    (if (filter_core b5m b1h bua bdc bip bmv).isEmpty
      then ["no_significant_indicators"]
      else (filter_core b5m b1h bua bdc bip bmv).take 3) := by
  cases b5m <;> cases b1h <;> cases bua <;> cases bdc <;> cases bip <;> cases bmv <;> rfl

/-- Claim C5: `generate_reasons` returns exactly the codes whose predicates
hold, in the fixed priority order `high_velocity_5m, unusual_amount,
high_device_churn, frequent_ip_changes, high_merchant_velocity,
high_velocity_1h`, truncated to the first three, and the single-element list
`["no_significant_indicators"]` when no predicate holds. -/
theorem generate_reasons_correct (m : FeatureMap) (risk_score : ℚ) :
    generate_reasons m risk_score =
      if (priority_order.filter (reason_pred m)).isEmpty
        then ["no_significant_indicators"]
      else (priority_order.filter (reason_pred m)).take 3 := by
  rw [filter_bridge m]
  simp only [generate_reasons]
  rw [collect_bridge m]
  exact reasons_core_eq _ _ _ _ _ _

end FraudRisk
